import Mathlib

/-!
Shallow embedding of the reporting utility in src/src/main.rs: the paginated
function lister `get_deployed_lambdas_list`, the version fetcher
`fetch_packagejson_details` / `get_packagejson`, and the entry point `main`.

External collaborators (the cloud provider listing API, the source-hosting
content API, the JSON deserializer) are parameters of the embedded functions;
the embedded code itself is translated line by line from the Rust source.
Rust `HashMap` values are modelled as association lists, panics as a dedicated
result constructor, and `std::process::exit` / returned `Result` of `main` as
an explicit exit-code record.
-/

/-- Error value produced by the cloud provider function-listing call
(`SdkError` of `list_functions`). -/
structure ApiError where
  msg : String
deriving DecidableEq, Repr

/-- The `environment` field of a remote function descriptor: the SDK type
`Environment`, whose `variables` accessor returns an optional map. -/
structure Environment where
  variables_map : Option (List (String × String))
deriving DecidableEq, Repr

/-- A remote function descriptor as returned by the listing API
(`FunctionConfiguration`): optional name, optional environment configuration,
optional arn. -/
structure FunctionConfiguration where
  function_name : Option String
  environment : Option Environment
  function_arn : Option String
deriving DecidableEq, Repr

/-- One page of the provider listing response: zero or more descriptors plus
an optional continuation marker. -/
structure ListFunctionsPage where
  functions : List FunctionConfiguration
  next_marker : Option String
deriving DecidableEq, Repr

/-- The record built by the lister (Rust struct `Lambda`). -/
structure Lambda where
  name : String
  env_vars : List (String × String)
  arn : String
deriving DecidableEq, Repr

/-- Outcome of `get_deployed_lambdas_list`: the Rust return type is
`Result<Vec<Lambda>, Error>`, and the body can additionally panic on an
`unwrap`, so the embedded outcome has three constructors. -/
inductive ListerResult where
  | ok (records : List Lambda)
  | err (e : ApiError)
  | panicked
deriving DecidableEq, Repr

/-- Modelled from the spec: the pagination driver provided by the SDK
(`into_paginator().items().send()`), which is an external collaborator not in
src/. The provider behaviour is a finite list of page responses consumed in
order. The driver issues one request per consumed page (carrying the token of
the moment), stops after an error response or after a page with no
continuation marker, and flattens page contents into a stream of per-item
results. Returns the request trace and the item stream. -/
def paginator :
    Option String → List (Except ApiError ListFunctionsPage) →
      List (Option String) × List (Except ApiError FunctionConfiguration)
  | _, [] => ([], [])
  | tok, .error e :: _ => ([tok], [.error e])
  | tok, .ok p :: rest =>
    match p.next_marker with
    | none => ([tok], p.functions.map Except.ok)
    | some t =>
      let next := paginator (some t) rest
      (tok :: next.1, p.functions.map Except.ok ++ next.2)

/-- The body of the async block built for a retained descriptor (main.rs
lines 67-79): unwraps the function name and the environment variables map;
`none` models the panic of a failed `unwrap`, and the arn defaults to the
empty string (`unwrap_or_default`). -/
def lambdaFromFunc (func : FunctionConfiguration) : Option Lambda :=
  match func.function_name, func.environment with
  | some nm, some env =>
    match env.variables_map with
    | some vars => some ⟨nm, vars, func.function_arn.getD ""⟩
    | none => none
  | _, _ => none

/-- The `while let` loop of `get_deployed_lambdas_list` (main.rs lines
62-94) over the item stream. Each stream element is a
`Result<FunctionConfiguration, SdkError>`; the source calls `.into_iter()`
on it, so an error element contributes nothing and the loop continues.
An `Ok` descriptor is kept when `environment().is_some()` and then converted
by the awaited task, which can panic. -/
def processItems : List (Except ApiError FunctionConfiguration) → ListerResult
  | [] => .ok []
  | .error _ :: rest => processItems rest
  | .ok func :: rest =>
    if func.environment.isSome then
      match lambdaFromFunc func with
      | none => .panicked
      | some lam =>
        match processItems rest with
        | .ok recs => .ok (lam :: recs)
        | r => r
    else
      processItems rest

/-- `get_deployed_lambdas_list` (main.rs lines 57-97): drives the paginator
over the provider pages and folds the item stream into `Lambda` records. -/
def get_deployed_lambdas_list (pages : List (Except ApiError ListFunctionsPage)) :
    ListerResult :=
  processItems (paginator none pages).2

/-- One content item of the hosting API response; `decoded` is the outcome of
`decoded_content()` (already decoded from the transport encoding, `none` when
decoding yields no content). -/
structure ContentItem where
  decoded : Option String
deriving DecidableEq, Repr

/-- Outcome of the hosting API call `repos(...).get_content().path("package.json").send()`
for one repository: either the transport fails or a list of content items is
returned. -/
inductive FetchOutcome where
  | networkError (e : String)
  | content (items : List ContentItem)
deriving DecidableEq, Repr

/-- JSON values as deserialized by the external JSON library an object
deserializes to, modelled structurally. -/
inductive Value where
  | null
  | bool (b : Bool)
  | num (n : Int)
  | str (s : String)
  | arr (elems : List Value)
  | obj (fields : List (String × Value))

/-- `HashMap::get` on the deserialized object, modelled on association
lists. -/
def mapGet (m : List (String × Value)) (k : String) : Option Value :=
  (m.find? (fun p => p.1 = k)).map (fun p => p.2)

/-- `HashMap::insert`, modelled on association lists: replaces the value of
an existing key, otherwise appends the binding. -/
def hashInsert (m : List (String × Value)) (k : String) (v : Value) :
    List (String × Value) :=
  if m.any (fun p => p.1 = k) then
    m.map (fun p => if p.1 = k then (k, v) else p)
  else
    m ++ [(k, v)]

/-- `get_packagejson` (main.rs lines 130-154). The hosting API call outcome
and the JSON deserializer (`serde_json::from_str` into a map) are parameters;
errors carry the `anyhow!` message built by the source. -/
def get_packagejson (parse : String → Except String (List (String × Value)))
    (outcome : FetchOutcome) : Except String (List (String × Value)) :=
  match outcome with
  | .networkError e => .error ("Failed to get package.json content: " ++ e)
  | .content items =>
    match items.head? with
    | none => .error "Package JSON content not found"
    | some item =>
      match item.decoded with
      | none => .error "Failed to decode package JSON content"
      | some text =>
        match parse text with
        | .error e => .error ("Failed to parse package.json: " ++ e)
        | .ok obj => .ok obj

/-- The five hard-coded repository names (main.rs lines 103-109). -/
def repositories : List String :=
  ["Scotski", "scraper", "standen-node", "now-github-starter", "movies-front"]

/-- The diagnostic line printed when one repository fetch fails
(main.rs line 117). -/
def diagMsg (repo e : String) : String :=
  "Failed to get package.json for repo " ++ repo ++ ": " ++ e

/-- The `for repo in repositories` loop of `fetch_packagejson_details`
(main.rs lines 113-125): on a failed fetch, log a diagnostic and continue;
on success, insert the `version` field into the accumulated map when it is
present. Returns the accumulated map and the diagnostic log. -/
def fetch_loop (parse : String → Except String (List (String × Value)))
    (world : String → FetchOutcome) :
    List String → List (String × Value) → List String →
      List (String × Value) × List String
  | [], acc, logs => (acc, logs)
  | repo :: rest, acc, logs =>
    match get_packagejson parse (world repo) with
    | .error e => fetch_loop parse world rest acc (logs ++ [diagMsg repo e])
    | .ok pj =>
      match mapGet pj "version" with
      | some v => fetch_loop parse world rest (hashInsert acc repo v) logs
      | none => fetch_loop parse world rest acc logs

/-- `fetch_packagejson_details` (main.rs lines 99-128). The construction of
the hosting API client (`Octocrab::builder()...build()?`) can fail and is
propagated by `?`; it is a parameter, as are the deserializer and the
per-repository fetch outcomes. -/
def fetch_packagejson_details (build : Except String Unit)
    (parse : String → Except String (List (String × Value)))
    (world : String → FetchOutcome) :
    Except String (List (String × Value) × List String) :=
  match build with
  | .error e => .error e
  | .ok _ => .ok (fetch_loop parse world repositories [] [])

/-- Whether a call returning `Except` succeeded. -/
def fetchSucceeded (r : Except String (List (String × Value) × List String)) :
    Bool :=
  match r with
  | .ok _ => true
  | .error _ => false

/-- The accumulated version map of a fetch result. -/
def detailsOf (r : Except String (List (String × Value) × List String)) :
    List (String × Value) :=
  match r with
  | .ok d => d.1
  | .error _ => []

/-- The diagnostic log of a fetch result. -/
def logsOf (r : Except String (List (String × Value) × List String)) :
    List String :=
  match r with
  | .ok d => d.2
  | .error _ => []

/-- Observable outcome of the process: exit code, the diagnostic line written
for a failure (if any), and whether any network client activity was
started. -/
structure MainResult where
  exitCode : Nat
  stderrLine : Option String
  networkUsed : Bool
deriving DecidableEq, Repr

/-- `main` (main.rs lines 9-48): reads `MY_TOKEN` (absence prints a
diagnostic and exits with status 1 before any client is built), then builds
the client and awaits the lister; a returned error is propagated by `?` out
of `main`, which prints the error and exits non-zero; a panic aborts the
process with the Rust panic status. -/
def rust_main (token : Option String) (lister : ListerResult) : MainResult :=
  match token with
  | none => ⟨1, some "MY_TOKEN environment variable not set", false⟩
  | some _ =>
    match lister with
    | .ok _ => ⟨0, none, true⟩
    | .err e => ⟨1, some ("Error: " ++ e.msg), true⟩
    | .panicked => ⟨101, some "panicked", true⟩

/-- Spec-side conversion of one page, following the spec words: retain the
descriptors with an environment configuration and convert each to a record
carrying the name, the cloned variable map, and the arn defaulted to the
empty string. -/
def specRetained (p : ListFunctionsPage) : List Lambda :=
  p.functions.filterMap fun f =>
    match f.environment with
    | none => none
    | some env =>
      match f.function_name, env.variables_map with
      | some nm, some vars => some ⟨nm, vars, f.function_arn.getD ""⟩
      | _, _ => none

/-- The record (if any) contributed by one stream item in the loop of
`get_deployed_lambdas_list`: errors and descriptors without an environment
contribute nothing; a retained descriptor contributes its conversion. -/
def toRecord : Except ApiError FunctionConfiguration → Option Lambda
  | .error _ => none
  | .ok f => if f.environment.isSome then lambdaFromFunc f else none

/-- A stream item that does not make the conversion panic: an error item, a
descriptor without environment, or a retained descriptor with both a name and
a variables map. -/
def itemSafe : Except ApiError FunctionConfiguration → Bool
  | .error _ => true
  | .ok f =>
    match f.environment with
    | none => true
    | some env => f.function_name.isSome && env.variables_map.isSome

/-! ### Helper lemmas -/

/-- The loop of the lister never produces an `err` result: the only exit
paths build `ok` or `panicked`, because the source drops the error component
of each stream item through `Result::into_iter`. -/
theorem processItems_ne_err (items : List (Except ApiError FunctionConfiguration)) :
    ∀ e, processItems items ≠ ListerResult.err e := by
  induction items with
  | nil => intro e; simp [processItems]
  | cons it rest ih =>
    intro e
    cases it with
    | error e2 => simpa [processItems] using ih e
    | ok f =>
      by_cases henv : f.environment.isSome
      · cases hl : lambdaFromFunc f with
        | none => simp [processItems, henv, hl]
        | some lam =>
          cases hr : processItems rest with
          | ok recs => simp [processItems, henv, hl, hr]
          | err e2 => exact absurd hr (ih e2)
          | panicked => simp [processItems, henv, hl, hr]
      · simpa [processItems, henv] using ih e

/-- Pointwise description of the record contributed by one descriptor. -/
theorem toRecord_ok (f : FunctionConfiguration) :
    toRecord (Except.ok f)
      = (match f.environment with
         | none => none
         | some env =>
           match f.function_name, env.variables_map with
           | some nm, some vars => some ⟨nm, vars, f.function_arn.getD ""⟩
           | _, _ => none) := by
  cases henv : f.environment with
  | none => simp [toRecord, henv]
  | some env =>
    cases hn : f.function_name with
    | none => simp [toRecord, lambdaFromFunc, henv, hn]
    | some nm =>
      cases hv : env.variables_map with
      | none => simp [toRecord, lambdaFromFunc, henv, hn, hv]
      | some vars => simp [toRecord, lambdaFromFunc, henv, hn, hv]

/-- The spec-side conversion of a page agrees with the per-item record map
of the embedded loop. -/
theorem specRetained_eq_filterMap (p : ListFunctionsPage) :
    specRetained p = p.functions.filterMap (fun f => toRecord (Except.ok f)) := by
  unfold specRetained
  exact (List.filterMap_congr (fun f _ => (toRecord_ok f).symm))

/-- When no item of the stream makes the conversion panic, the loop returns
`ok` with exactly the records of the retained descriptors, in stream
order. -/
theorem processItems_safe (items : List (Except ApiError FunctionConfiguration))
    (h : ∀ it ∈ items, itemSafe it = true) :
    processItems items = ListerResult.ok (items.filterMap toRecord) := by
  induction items with
  | nil => rfl
  | cons it rest ih =>
    have hrest : ∀ x ∈ rest, itemSafe x = true :=
      fun x hx => h x (List.mem_cons_of_mem _ hx)
    have hit : itemSafe it = true := h it (List.mem_cons_self _ _)
    cases it with
    | error e => simp [processItems, toRecord, ih hrest]
    | ok f =>
      cases henv : f.environment with
      | none => simp [processItems, toRecord, henv, ih hrest]
      | some env =>
        rw [itemSafe, henv] at hit
        simp only [Bool.and_eq_true, Option.isSome_iff_exists] at hit
        obtain ⟨⟨nm, hnm⟩, ⟨vars, hvars⟩⟩ := hit
        have hl : lambdaFromFunc f = some ⟨nm, vars, f.function_arn.getD ""⟩ := by
          simp [lambdaFromFunc, hnm, henv, hvars]
        simp [processItems, toRecord, henv, hl, ih hrest]

/-- One-step unfolding of the paginator on a successful page. -/
theorem paginator_cons_ok (tok : Option String) (p : ListFunctionsPage)
    (rest : List (Except ApiError ListFunctionsPage)) :
    paginator tok (Except.ok p :: rest)
      = (match p.next_marker with
         | none => ([tok], p.functions.map Except.ok)
         | some t =>
           (tok :: (paginator (some t) rest).1,
             p.functions.map Except.ok ++ (paginator (some t) rest).2)) := rfl

/-- When every non-final page carries a continuation marker, the item stream
produced by the paginator is the concatenation of the page contents. -/
theorem paginator_items (pages : List ListFunctionsPage) :
    ∀ tok, (∀ p ∈ pages.dropLast, p.next_marker.isSome) →
      (paginator tok (pages.map Except.ok)).2
        = pages.flatMap (fun p => p.functions.map Except.ok) := by
  induction pages with
  | nil => intro tok _; rfl
  | cons p rest ih =>
    intro tok h
    cases rest with
    | nil =>
      cases hm : p.next_marker with
      | none => simp [paginator, hm]
      | some t => simp [paginator, hm]
    | cons q rs =>
      have hp : p.next_marker.isSome := by
        apply h p
        rw [List.dropLast_cons_of_ne_nil (by simp)]
        exact List.mem_cons_self _ _
      obtain ⟨t, ht⟩ := Option.isSome_iff_exists.mp hp
      have hrest : ∀ x ∈ (q :: rs).dropLast, x.next_marker.isSome := by
        intro x hx
        apply h x
        rw [List.dropLast_cons_of_ne_nil (by simp)]
        exact List.mem_cons_of_mem _ hx
      have ih2 := ih (some t) hrest
      rw [List.map_cons] at ih2
      rw [List.map_cons, paginator_cons_ok, ht]
      show List.map Except.ok p.functions
          ++ (paginator (some t) (Except.ok q :: List.map Except.ok rs)).2
        = (p :: q :: rs).flatMap fun x => List.map Except.ok x.functions
      rw [ih2]
      simp

/-- When the last page has no continuation marker and every earlier page has
one, the request trace is the initial token followed by the markers of all
pages but the last. -/
theorem paginator_reqs (pages : List ListFunctionsPage) :
    ∀ tok (last : ListFunctionsPage), pages.getLast? = some last →
      last.next_marker = none →
      (∀ p ∈ pages.dropLast, p.next_marker.isSome) →
      (paginator tok (pages.map Except.ok)).1
        = tok :: pages.dropLast.map (fun p => p.next_marker) := by
  induction pages with
  | nil => intro tok last hl; simp at hl
  | cons p rest ih =>
    intro tok last hl hnone h
    cases rest with
    | nil =>
      simp at hl
      subst hl
      simp [paginator, hnone]
    | cons q rs =>
      have hp : p.next_marker.isSome := by
        apply h p
        rw [List.dropLast_cons_of_ne_nil (by simp)]
        exact List.mem_cons_self _ _
      obtain ⟨t, ht⟩ := Option.isSome_iff_exists.mp hp
      have hrest : ∀ x ∈ (q :: rs).dropLast, x.next_marker.isSome := by
        intro x hx
        apply h x
        rw [List.dropLast_cons_of_ne_nil (by simp)]
        exact List.mem_cons_of_mem _ hx
      have hl2 : (q :: rs).getLast? = some last := by
        rw [← hl, List.getLast?_cons_cons]
      have ih2 := ih (some t) last hl2 hnone hrest
      rw [List.map_cons] at ih2
      rw [List.map_cons, paginator_cons_ok, ht]
      show tok :: (paginator (some t) (Except.ok q :: List.map Except.ok rs)).1
        = tok :: ((p :: q :: rs).dropLast.map fun x => x.next_marker)
      rw [ih2,
        List.dropLast_cons_of_ne_nil (by simp : (q :: rs : List ListFunctionsPage) ≠ []),
        List.map_cons, ht]

/-- The diagnostic log accumulated by the fetch loop: one line per repository
whose fetch failed, in repository order, appended to the incoming log. -/
theorem fetch_loop_logs (parse : String → Except String (List (String × Value)))
    (world : String → FetchOutcome) :
    ∀ (repos : List String) (acc : List (String × Value)) (logs : List String),
      (fetch_loop parse world repos acc logs).2
        = logs ++ repos.filterMap (fun repo =>
            match get_packagejson parse (world repo) with
            | .error e => some (diagMsg repo e)
            | .ok _ => none) := by
  intro repos
  induction repos with
  | nil => intro acc logs; simp [fetch_loop]
  | cons repo rest ih =>
    intro acc logs
    cases hg : get_packagejson parse (world repo) with
    | error e => simp [fetch_loop, hg, ih, List.filterMap_cons]
    | ok pj =>
      cases hv : mapGet pj "version" with
      | some v => simp [fetch_loop, hg, hv, ih, List.filterMap_cons]
      | none => simp [fetch_loop, hg, hv, ih, List.filterMap_cons]

/-- Inserting a binding adds no key other than the inserted one. -/
theorem hashInsert_keys (m : List (String × Value)) (k : String) (v : Value)
    (k2 : String) (h : k2 ∈ (hashInsert m k v).map Prod.fst) :
    k2 ∈ m.map Prod.fst ∨ k2 = k := by
  unfold hashInsert at h
  by_cases hany : m.any (fun p => p.1 = k)
  · rw [if_pos hany] at h
    rw [List.map_map] at h
    obtain ⟨p, hp, hpk⟩ := List.mem_map.mp h
    by_cases hk : p.1 = k
    · right
      simpa [Function.comp, hk] using hpk.symm
    · left
      rw [List.mem_map]
      exact ⟨p, hp, by simpa [Function.comp, hk] using hpk⟩
  · rw [if_neg hany] at h
    rw [List.map_append] at h
    rcases List.mem_append.mp h with h1 | h2
    · exact Or.inl h1
    · right
      simpa using h2

/-- Every key of the map built by the fetch loop comes from the incoming
accumulator or from the iterated repository list. -/
theorem fetch_loop_keys (parse : String → Except String (List (String × Value)))
    (world : String → FetchOutcome) :
    ∀ (repos : List String) (acc : List (String × Value)) (logs : List String)
      (k : String),
      k ∈ (fetch_loop parse world repos acc logs).1.map Prod.fst →
      k ∈ acc.map Prod.fst ∨ k ∈ repos := by
  intro repos
  induction repos with
  | nil => intro acc logs k hk; exact Or.inl (by simpa [fetch_loop] using hk)
  | cons repo rest ih =>
    intro acc logs k hk
    cases hg : get_packagejson parse (world repo) with
    | error e =>
      simp only [fetch_loop, hg] at hk
      rcases ih _ _ _ hk with h1 | h2
      · exact Or.inl h1
      · exact Or.inr (List.mem_cons_of_mem _ h2)
    | ok pj =>
      cases hv : mapGet pj "version" with
      | some v =>
        simp only [fetch_loop, hg, hv] at hk
        rcases ih _ _ _ hk with h1 | h2
        · rcases hashInsert_keys acc repo v k h1 with ha | hb
          · exact Or.inl ha
          · exact Or.inr (hb ▸ List.mem_cons_self _ _)
        · exact Or.inr (List.mem_cons_of_mem _ h2)
      | none =>
        simp only [fetch_loop, hg, hv] at hk
        rcases ih _ _ _ hk with h1 | h2
        · exact Or.inl h1
        · exact Or.inr (List.mem_cons_of_mem _ h2)

/-- If any stream item is a retained descriptor whose name or variable map is
missing, the loop panics. -/
theorem processItems_panics
    (items : List (Except ApiError FunctionConfiguration)) :
    ∀ (func : FunctionConfiguration) (env : Environment),
      Except.ok func ∈ items →
      func.environment = some env →
      (func.function_name = none ∨ env.variables_map = none) →
      processItems items = ListerResult.panicked := by
  induction items with
  | nil => intro func env hmem; exact absurd hmem (List.not_mem_nil _)
  | cons it rest ih =>
    intro func env hmem henv hmal
    rcases List.mem_cons.mp hmem with heq | hrest
    · subst heq
      have hl : lambdaFromFunc func = none := by
        rcases hmal with hn | hv
        · simp [lambdaFromFunc, hn]
        · cases hn : func.function_name with
          | none => simp [lambdaFromFunc, hn]
          | some nm => simp [lambdaFromFunc, hn, henv, hv]
      simp [processItems, henv, hl]
    · have hp := ih func env hrest henv hmal
      cases it with
      | error e => simpa [processItems] using hp
      | ok g =>
        by_cases hg : g.environment.isSome
        · cases hlg : lambdaFromFunc g with
          | none => simp [processItems, hg, hlg]
          | some lam => simp [processItems, hg, hlg, hp]
        · simpa [processItems, hg] using hp

/-- The item-stream concatenation, filtered per item, is the page-wise
spec-side concatenation. -/
theorem filterMap_toRecord_flatMap (pages : List ListFunctionsPage) :
    (pages.flatMap (fun p => p.functions.map Except.ok)).filterMap toRecord
      = pages.flatMap specRetained := by
  induction pages with
  | nil => rfl
  | cons p rest ih =>
    rw [List.flatMap_cons, List.flatMap_cons, List.filterMap_append, ih]
    congr 1
    rw [List.filterMap_map, specRetained_eq_filterMap]
    rfl

/-- The lister never surfaces a provider error: every run returns `ok` or
panics, because the loop drops the error component of each stream item. -/
theorem get_deployed_lambdas_list_ne_err
    (pages : List (Except ApiError ListFunctionsPage)) (e : ApiError) :
    get_deployed_lambdas_list pages ≠ ListerResult.err e :=
  processItems_ne_err _ e

/-! ### Concrete scenario data -/

/-- A well-formed descriptor with one environment variable. -/
def fA : FunctionConfiguration := ⟨some "funcA", some ⟨some [("K", "V")]⟩, some "arnA"⟩

/-- A descriptor with no environment configuration (dropped by the filter). -/
def fB : FunctionConfiguration := ⟨some "funcB", none, some "arnB"⟩

/-- A well-formed descriptor with two environment variables and no arn. -/
def fC : FunctionConfiguration := ⟨some "funcC", some ⟨some [("X", "1"), ("Y", "2")]⟩, none⟩

/-- A two-page provider response: the first page carries a continuation
marker, the second does not. -/
def pagesW : List ListFunctionsPage := [⟨[fA], some "t1"⟩, ⟨[fB, fC], none⟩]

/-- Per-repository fetch outcomes for the five-repository scenario: one
repository yields content without a version field, one yields unparseable
content, one fails on the network, two yield valid version documents. -/
def world5 : String → FetchOutcome
  | "Scotski" => .content [⟨some "NOVER"⟩]
  | "scraper" => .content [⟨some "GARBAGE"⟩]
  | "standen-node" => .networkError "timeout"
  | "now-github-starter" => .content [⟨some "PKG1"⟩]
  | _ => .content [⟨some "PKG2"⟩]

/-- The deserializer behaviour on the payloads of the five-repository
scenario. -/
def parse5 : String → Except String (List (String × Value))
  | "NOVER" => .ok [("name", Value.str "scotski")]
  | "GARBAGE" => .error "expected value at line 1 column 1"
  | "PKG1" => .ok [("version", Value.str "1.2.0")]
  | "PKG2" => .ok [("version", Value.str "3.0.0")]
  | _ => .error "unreachable"

/-- A deserializer that always fails (for closed instantiations). -/
def parseTriv : String → Except String (List (String × Value)) := fun _ => .error "x"

/-- A world in which every fetch fails on the network. -/
def worldTriv : String → FetchOutcome := fun _ => .networkError "x"

/-! ### Claim theorems -/

/-- C1: evaluation of the lister at a failing input. The provider succeeds on
page one (one retained descriptor) and errors on page two; the source drops
the error through `Result::into_iter` and returns `Ok` with the partial
records, instead of surfacing the error with no partial result as the spec
demands. -/
theorem lister_swallows_provider_error :
    get_deployed_lambdas_list
        [Except.ok ⟨[⟨some "funcA", some ⟨some [("K", "V")]⟩, some "arnA"⟩], some "t1"⟩,
         Except.error ⟨"AccessDenied"⟩]
      = ListerResult.ok [⟨"funcA", [("K", "V")], "arnA"⟩] := by decide

/-- C2 counterexample: a descriptor whose environment configuration is
present but contains an empty variable map produces a record with zero
environment variables, refuting the claim that every record in the result
has at least one environment variable. -/
theorem lister_record_with_zero_env_vars :
    get_deployed_lambdas_list
        [Except.ok ⟨[⟨some "f", some ⟨some []⟩, some "arn"⟩], none⟩]
      = ListerResult.ok [⟨"f", [], "arn"⟩]
    ∧ Lambda.env_vars ⟨"f", [], "arn"⟩ = [] := ⟨by decide, rfl⟩

/-- C2 amended: when no stream item makes the conversion panic, the loop
returns exactly the records of the descriptors whose environment
configuration is present (possibly with an empty variable map); a record is
contributed by a descriptor if and only if its environment configuration is
present, and descriptors without one are excluded without an error. -/
theorem lister_record_iff_env_present
    (items : List (Except ApiError FunctionConfiguration))
    (hsafe : ∀ it ∈ items, itemSafe it = true) :
    processItems items = ListerResult.ok (items.filterMap toRecord)
    ∧ ∀ f : FunctionConfiguration, Except.ok f ∈ items →
        ((toRecord (Except.ok f)).isSome ↔ f.environment.isSome) := by
  refine ⟨processItems_safe items hsafe, ?_⟩
  intro f hf
  have hs := hsafe _ hf
  cases henv : f.environment with
  | none => simp [toRecord, henv]
  | some env =>
    rw [itemSafe, henv] at hs
    simp only [Bool.and_eq_true, Option.isSome_iff_exists] at hs
    obtain ⟨⟨nm, hnm⟩, ⟨vars, hvars⟩⟩ := hs
    simp [toRecord, lambdaFromFunc, henv, hnm, hvars]

/-- Witness for the C2 amended theorem at a concrete stream with one
retained and one dropped descriptor. -/
theorem lister_record_iff_env_present_witness :
    processItems [Except.ok fA, Except.ok fB]
      = ListerResult.ok ([Except.ok fA, Except.ok fB].filterMap toRecord) :=
  (lister_record_iff_env_present [Except.ok fA, Except.ok fB] (by decide)).1

/-- C3: for every finite sequence of error-free pages whose non-final pages
carry continuation markers and whose retained descriptors are well formed,
the lister returns the concatenation over all pages of the retained
descriptors converted to records (name, cloned variable map, arn defaulted
to the empty string). -/
theorem lister_result_is_retained_concat (pages : List ListFunctionsPage)
    (hmark : ∀ p ∈ pages.dropLast, p.next_marker.isSome)
    (hsafe : ∀ p ∈ pages, ∀ f ∈ p.functions, itemSafe (Except.ok f) = true) :
    get_deployed_lambdas_list (pages.map Except.ok)
      = ListerResult.ok (pages.flatMap specRetained) := by
  unfold get_deployed_lambdas_list
  rw [paginator_items pages none hmark]
  have hsafe2 : ∀ it ∈ pages.flatMap (fun p => p.functions.map Except.ok),
      itemSafe it = true := by
    intro it hit
    rw [List.mem_flatMap] at hit
    obtain ⟨p, hp, hit2⟩ := hit
    obtain ⟨f, hf, rfl⟩ := List.mem_map.mp hit2
    exact hsafe p hp f hf
  rw [processItems_safe _ hsafe2, filterMap_toRecord_flatMap]

/-- Witness for C3 at a concrete two-page response. -/
theorem lister_result_is_retained_concat_witness :
    get_deployed_lambdas_list (pagesW.map Except.ok)
      = ListerResult.ok (pagesW.flatMap specRetained) :=
  lister_result_is_retained_concat pagesW (by decide) (by decide)

/-- C4 counterexample: when the construction of the hosting API client fails,
`fetch_packagejson_details` itself fails (the `?` on `build()` propagates the
error), refuting the claim that the call never fails. -/
theorem fetch_details_fails_without_client :
    fetchSucceeded
        (fetch_packagejson_details (Except.error "octocrab build failed") parseTriv worldTriv)
      = false := rfl

/-- C4 amended: provided the hosting API client is constructed successfully,
the call never fails, whatever the per-repository outcomes: it returns the
accumulated mapping, and its diagnostic log holds exactly one line per failed
repository fetch, identifying the repository, in iteration order. -/
theorem fetch_details_total_and_logged
    (parse : String → Except String (List (String × Value)))
    (world : String → FetchOutcome) :
    fetchSucceeded (fetch_packagejson_details (Except.ok ()) parse world) = true
    ∧ logsOf (fetch_packagejson_details (Except.ok ()) parse world)
        = repositories.filterMap (fun repo =>
            match get_packagejson parse (world repo) with
            | .error e => some (diagMsg repo e)
            | .ok _ => none) := by
  refine ⟨rfl, ?_⟩
  have h := fetch_loop_logs parse world repositories [] []
  simpa [fetch_packagejson_details, logsOf] using h

/-- Witness for C4 amended at the five-repository scenario world. -/
theorem fetch_details_total_and_logged_witness :
    fetchSucceeded (fetch_packagejson_details (Except.ok ()) parse5 world5) = true
    ∧ logsOf (fetch_packagejson_details (Except.ok ()) parse5 world5)
        = repositories.filterMap (fun repo =>
            match get_packagejson parse5 (world5 repo) with
            | .error e => some (diagMsg repo e)
            | .ok _ => none) :=
  fetch_details_total_and_logged parse5 world5

/-- C5 counterexample: in the five-repository scenario (one repository with
content lacking a version field, one with unparseable content, one network
failure, two valid), the number of logged diagnostics is not three — the
missing-version repository is skipped without a diagnostic. -/
theorem fetch_scenario_logs_not_three :
    (logsOf (fetch_packagejson_details (Except.ok ()) parse5 world5)).length ≠ 3 := by
  decide

/-- C5 amended: in that scenario the resulting mapping holds exactly the two
valid entries, and exactly two diagnostics are logged (for the parse failure
and the network failure; the missing-version repository is skipped
silently). -/
theorem fetch_scenario_two_entries_two_diagnostics :
    fetch_packagejson_details (Except.ok ()) parse5 world5
      = Except.ok
          ([("now-github-starter", Value.str "1.2.0"), ("movies-front", Value.str "3.0.0")],
           [diagMsg "scraper" "Failed to parse package.json: expected value at line 1 column 1",
            diagMsg "standen-node" "Failed to get package.json content: timeout"]) := rfl

/-- C6: for a successful content retrieval, only the first content item
matters: the repository attempt fails when the item decodes to no content or
the decoded text does not parse; on a successful parse the loop inserts the
version binding exactly when the parsed object has a version field, and adds
nothing otherwise. -/
theorem get_packagejson_first_item_rules
    (parse : String → Except String (List (String × Value)))
    (world : String → FetchOutcome) (repo text : String)
    (item : ContentItem) (rest : List ContentItem)
    (repos : List String) (acc : List (String × Value)) (logs : List String)
    (hw : world repo = FetchOutcome.content (item :: rest)) :
    (item.decoded = none →
       get_packagejson parse (world repo)
         = Except.error "Failed to decode package JSON content")
    ∧ (∀ e, item.decoded = some text → parse text = Except.error e →
       get_packagejson parse (world repo)
         = Except.error ("Failed to parse package.json: " ++ e))
    ∧ (∀ obj, item.decoded = some text → parse text = Except.ok obj →
       get_packagejson parse (world repo) = Except.ok obj
       ∧ fetch_loop parse world (repo :: repos) acc logs
           = (match mapGet obj "version" with
              | some v => fetch_loop parse world repos (hashInsert acc repo v) logs
              | none => fetch_loop parse world repos acc logs)) := by
  refine ⟨?_, ?_, ?_⟩
  · intro hd
    simp [get_packagejson, hw, hd]
  · intro e hd hp
    simp [get_packagejson, hw, hd, hp]
  · intro obj hd hp
    have hg : get_packagejson parse (world repo) = Except.ok obj := by
      simp [get_packagejson, hw, hd, hp]
    refine ⟨hg, ?_⟩
    cases hv : mapGet obj "version" with
    | some v => simp [fetch_loop, hg, hv]
    | none => simp [fetch_loop, hg, hv]

/-- Witness for C6 at a concrete repository whose content parses to an object
with a version field. -/
theorem get_packagejson_first_item_rules_witness :
    get_packagejson parse5 (world5 "now-github-starter")
      = Except.ok [("version", Value.str "1.2.0")]
    ∧ fetch_loop parse5 world5 ["now-github-starter"] [] []
        = (match mapGet [("version", Value.str "1.2.0")] "version" with
           | some v => fetch_loop parse5 world5 [] (hashInsert [] "now-github-starter" v) []
           | none => fetch_loop parse5 world5 [] [] []) :=
  (get_packagejson_first_item_rules parse5 world5 "now-github-starter" "PKG1"
      ⟨some "PKG1"⟩ [] [] [] [] rfl).2.2 [("version", Value.str "1.2.0")] rfl rfl

/-- C7: when the credential variable is absent, the process exits with status
1 and a diagnostic on standard error before any client is built; with the
credential present, normal completion of the lister exits 0, and a lister
error exits with the non-zero status 1 printing the error. -/
theorem main_credential_and_exit_codes :
    (∀ lister : ListerResult,
        rust_main none lister
          = ⟨1, some "MY_TOKEN environment variable not set", false⟩)
    ∧ (∀ (tok : String) (recs : List Lambda),
        rust_main (some tok) (ListerResult.ok recs) = ⟨0, none, true⟩)
    ∧ (∀ (tok : String) (e : ApiError),
        rust_main (some tok) (ListerResult.err e)
          = ⟨1, some ("Error: " ++ e.msg), true⟩) :=
  ⟨fun _ => rfl, fun _ _ => rfl, fun _ _ => rfl⟩

/-- C8: the repository list is exactly the five compile-time literal names,
and every key of the resulting mapping is one of those five names, for any
deserializer and any per-repository outcomes. -/
theorem repositories_fixed_and_result_keys :
    repositories = ["Scotski", "scraper", "standen-node", "now-github-starter", "movies-front"]
    ∧ repositories.length = 5
    ∧ ∀ (parse : String → Except String (List (String × Value)))
        (world : String → FetchOutcome) (k : String),
        k ∈ (detailsOf (fetch_packagejson_details (Except.ok ()) parse world)).map Prod.fst →
        k ∈ repositories := by
  refine ⟨rfl, rfl, ?_⟩
  intro parse world k hk
  have h : k ∈ ([] : List (String × Value)).map Prod.fst ∨ k ∈ repositories :=
    fetch_loop_keys parse world repositories [] [] k
      (by simpa [fetch_packagejson_details, detailsOf] using hk)
  simpa using h

/-- Witness for C8: a key of the mapping produced in the five-repository
scenario is one of the five names. -/
theorem repositories_fixed_and_result_keys_witness :
    "now-github-starter" ∈ repositories :=
  repositories_fixed_and_result_keys.2.2 parse5 world5 "now-github-starter" (by decide)

/-- C9: for every nonempty finite page sequence whose last page lacks a
continuation marker and whose earlier pages carry one, the paginator issues
exactly one request per page — the first with no token, each later one with
the preceding page marker — and none after the marker-less page. -/
theorem pagination_one_request_per_page (pages : List ListFunctionsPage)
    (last : ListFunctionsPage) (hlast : pages.getLast? = some last)
    (hnone : last.next_marker = none)
    (hmark : ∀ p ∈ pages.dropLast, p.next_marker.isSome) :
    (paginator none (pages.map Except.ok)).1
        = none :: pages.dropLast.map (fun p => p.next_marker)
    ∧ (paginator none (pages.map Except.ok)).1.length = pages.length := by
  have h1 := paginator_reqs pages none last hlast hnone hmark
  refine ⟨h1, ?_⟩
  rw [h1]
  have hne : pages ≠ [] := by
    intro h
    rw [h] at hlast
    simp at hlast
  have hpos : 0 < pages.length := List.length_pos.mpr hne
  simp only [List.length_cons, List.length_map, List.length_dropLast]
  omega

/-- Witness for C9 at the concrete two-page response. -/
theorem pagination_one_request_per_page_witness :
    (paginator none (pagesW.map Except.ok)).1
        = none :: pagesW.dropLast.map (fun p => p.next_marker)
    ∧ (paginator none (pagesW.map Except.ok)).1.length = pagesW.length :=
  pagination_one_request_per_page pagesW ⟨[fB, fC], none⟩ (by decide) rfl (by decide)

/-- C10: a descriptor in the item stream whose environment configuration is
present but whose function name or variable map is missing makes the whole
lister panic rather than return an error or skip the descriptor. -/
theorem lister_panics_on_malformed_descriptor
    (pages : List (Except ApiError ListFunctionsPage))
    (func : FunctionConfiguration) (env : Environment)
    (hmem : Except.ok func ∈ (paginator none pages).2)
    (henv : func.environment = some env)
    (hmal : func.function_name = none ∨ env.variables_map = none) :
    get_deployed_lambdas_list pages = ListerResult.panicked :=
  processItems_panics _ func env hmem henv hmal

/-- Witness for C10: a single page holding a nameless descriptor with an
environment configuration makes the lister panic. -/
theorem lister_panics_on_malformed_descriptor_witness :
    get_deployed_lambdas_list [Except.ok ⟨[⟨none, some ⟨some []⟩, none⟩], none⟩]
      = ListerResult.panicked :=
  lister_panics_on_malformed_descriptor
    [Except.ok ⟨[⟨none, some ⟨some []⟩, none⟩], none⟩]
    ⟨none, some ⟨some []⟩, none⟩ ⟨some []⟩ (List.mem_singleton.mpr rfl) rfl (Or.inl rfl)
